import Mathlib

/-!
Shallow embedding of the SmartOps chat core: the natural-language intent
resolver with its local fallback (services/geminiService, `src/unnamed/part_003`)
and the single-flight execution queue with cancellation, mock response
synthesis and audit logging (`ChatView` in `src/vite.config.ts`, lines 755-1074).

Modelling conventions:
* TypeScript strings are Lean `String`s; JS `toLowerCase`, `includes`,
  `split`/`join` are modelled at code-point level.
* JS numbers used for `confidence` are modelled as `ℚ`; the concrete values
  in the source (0, 0.7, 0.8, 1) are exact in either representation.
* `Math.random()`-derived values (mock duration draw, mock request id) are
  explicit parameters of the functions that consume them.
* `Date.now()` / wall-clock timestamps are modelled by a logical clock in the
  queue state that advances by 1000 ticks per event; in the source the events
  that read the clock are separated by macrotasks (and the 5000 ms simulated
  wait), so consecutive readings are distinct and increasing.
* `JSON.parse` is platform code, not repository code; it is an oracle
  parameter (`jsonParse : String → Option Json`) of the queue context.
* The remote Gemini call is platform/network behaviour; it is an oracle
  returning either a failure (any thrown error, missing text, unparseable
  payload) or a parsed `IntentAnalysisResult`.
-/

namespace SmartOps

/-- `ConfigType` enum from `types.ts`. -/
inductive ConfigType where
  | API
  | SCRIPT
  | ENV
deriving DecidableEq, Repr

/-- The string value of a `ConfigType` member (the TS enum values). -/
def ConfigType.str : ConfigType → String
  | .API => "API"
  | .SCRIPT => "SCRIPT"
  | .ENV => "ENV"

/-- `OpsConfig` interface from `types.ts`. -/
structure OpsConfig where
  id : String
  name : String
  description : String
  type : ConfigType
  content : String
  method : Option String
  tags : List String
  lastUpdated : String
deriving DecidableEq, Repr

/-- `Language` from `types.ts`. -/
inductive Language where
  | en
  | zh
deriving DecidableEq, Repr

/-- `IntentAnalysisResult` interface from `types.ts`.  `matchedConfigId` is
`string | null`, `suggestedConfigIds` is an optional array. -/
structure IntentAnalysisResult where
  matchedConfigId : Option String
  suggestedConfigIds : Option (List String)
  reply : String
  confidence : ℚ
deriving DecidableEq, Repr

/-- Substring search on code-point lists: the needle is a prefix of some
suffix of the haystack. -/
def listContains (hay needle : List Char) : Bool :=
  needle.isPrefixOf hay ||
    match hay with
    | [] => false
    | _ :: tl => listContains tl needle

/-- JS `haystack.includes(needle)` at code-point level. -/
def includes (haystack needle : String) : Bool :=
  listContains haystack.toList needle.toList

/-- JS `String.prototype.toLowerCase` at code-point level (the characters the
source lower-cases are ASCII; CJK characters are caseless). -/
def jsToLowerCase (s : String) : String :=
  String.mk (s.toList.map Char.toLower)

/-- JS `s.split(sep)` for a non-empty separator, on code-point lists:
leftmost-first, non-overlapping, empty fragments kept.  The fuel argument
(instantiated with the haystack length, which bounds the recursion depth) only
makes the recursion structural. -/
def jsSplitAux (sep : List Char) : Nat → List Char → List (List Char)
  | _, [] => [[]]
  | 0, l => [l]
  | Nat.succ fuel, c :: tl =>
    if sep.isPrefixOf (c :: tl) then
      [] :: jsSplitAux sep fuel (List.drop sep.length (c :: tl))
    else
      match jsSplitAux sep fuel tl with
      | [] => [[c]]
      | t :: ts => (c :: t) :: ts

/-- JS `s.split(sep)` (non-empty separator). -/
def jsSplit (s sep : String) : List String :=
  (jsSplitAux sep.toList s.toList.length s.toList).map String.mk

/-- JS `parts.join(sep)`. -/
def jsJoin (sep : String) (parts : List String) : String :=
  String.mk (List.intercalate sep.toList (parts.map String.toList))

/-- The keyword test of step 1 of the local fallback
(`geminiService.performLocalFallbackAnalysis`): the lower-cased message
contains one of the fixed list/help/show/what/commands keywords (English and
Chinese forms are always both checked, whatever the locale). -/
def hasListKeyword (lowerMsg : String) : Bool :=
  includes lowerMsg "list" || includes lowerMsg "help" || includes lowerMsg "show" ||
    includes lowerMsg "what" || includes lowerMsg "commands" ||
    includes lowerMsg "命令" || includes lowerMsg "帮助"

/-- The haystack the fallback matches tokens against:
`` `${config.name} ${config.description} ${config.type} ${config.tags.join(' ')}`.toLowerCase() ``. -/
def configHaystack (config : OpsConfig) : String :=
  (config.name ++ " " ++ config.description ++ " " ++ config.type.str ++ " " ++
    jsJoin " " config.tags) |> jsToLowerCase

/-- The token list of step 2 of the fallback:
`lowerMsg.split(' ').filter(t => t.length > 1)`. -/
def searchTermsOf (lowerMsg : String) : List String :=
  (jsSplit lowerMsg " ").filter (fun t => decide (1 < t.length))

/-- The candidate list of step 2 of the fallback: the configs whose haystack
contains at least one search term (the `forEach`/`push` loop building
`matchedConfigs` is the order-preserving `List.filter`). -/
def matchedConfigsOf (lowerMsg : String) (configs : List OpsConfig) : List OpsConfig :=
  configs.filter
    (fun config => (searchTermsOf lowerMsg).any (fun term => includes (configHaystack config) term))

/-- `performLocalFallbackAnalysis` from `services/geminiService`
(`src/unnamed/part_003`, lines 112-168), transcribed clause by clause. -/
def performLocalFallbackAnalysis (userMessage : String) (configs : List OpsConfig)
    (language : Language) : IntentAnalysisResult :=
  let lowerMsg := jsToLowerCase userMessage
  if hasListKeyword lowerMsg then
    { matchedConfigId := none
      suggestedConfigIds := some (configs.map (·.id))
      reply := if language = .zh then
          "由于网络限制无法连接 AI 服务，已为您切换到离线模式。以下是所有可用配置："
        else
          "Unable to connect to AI service due to network restrictions. Switched to offline mode. Here are available configs:"
      confidence := 1 }
  else
    let matchedConfigs := matchedConfigsOf lowerMsg configs
    -- the source checks `length === 1`, then `length > 1`, else falls through
    match matchedConfigs with
    | [config] =>
      { matchedConfigId := some config.id
        suggestedConfigIds := none
        reply := if language = .zh then
            "（离线模式）已匹配到配置：" ++ config.name
          else
            "(Offline Mode) Matched configuration: " ++ config.name
        confidence := 8 / 10 }
    | [] =>
      { matchedConfigId := none
        suggestedConfigIds := none
        reply := if language = .zh then
            "（离线模式）未能识别您的指令。请尝试输入“列表”查看所有可用命令。"
          else
            "(Offline Mode) Could not recognize your command. Try typing \x27list\x27 to see all options."
        confidence := 0 }
    | _ =>
      { matchedConfigId := none
        suggestedConfigIds := some (matchedConfigs.map (·.id))
        reply := if language = .zh then
            "（离线模式）发现多个相关配置，请具体说明您的意图："
          else
            "(Offline Mode) Found multiple matching configs. Please be more specific:"
        confidence := 7 / 10 }

/-- The pre-filter of `analyzeUserIntent`: only API/SCRIPT configs are
candidates, ENV configs are excluded
(`availableConfigs.filter(c => c.type !== ConfigType.ENV)`). -/
def executableConfigs (availableConfigs : List OpsConfig) : List OpsConfig :=
  availableConfigs.filter (fun c => decide (c.type ≠ ConfigType.ENV))

/-- The reduced per-config record sent to the remote resolver
(`toolsDescription` in `analyzeUserIntent`). -/
structure ToolDescription where
  id : String
  name : String
  description : String
  type : ConfigType
  tags : String
deriving DecidableEq, Repr

/-- `toolsDescription`: the candidate catalogue presented to the remote call,
built from the executable configs only. -/
def toolsDescription (availableConfigs : List OpsConfig) : List ToolDescription :=
  (executableConfigs availableConfigs).map
    (fun c => ⟨c.id, c.name, c.description, c.type, jsJoin ", " c.tags⟩)

/-- Outcome of the remote Gemini call as observed by `analyzeUserIntent`:
either some failure (thrown transport error, empty `response.text`, a payload
`JSON.parse` rejects) or a successfully parsed `IntentAnalysisResult`. -/
inductive RemoteOutcome where
  | failure
  | success (result : IntentAnalysisResult)

/-- The shape normalization `analyzeUserIntent` performs on a successful
remote result: a literal `"null"` matched id becomes an absent value. -/
def normalizeRemoteResult (result : IntentAnalysisResult) : IntentAnalysisResult :=
  if result.matchedConfigId = some "null" then
    { result with matchedConfigId := none }
  else
    result

/-- `analyzeUserIntent` from `services/geminiService`
(`src/unnamed/part_003`, lines 170-273).  `hasApiKey` models the truthiness of
`process.env.API_KEY`; `remote` is the oracle for the Gemini call, which the
source supplies with the user message, the reduced executable-config catalogue
and the locale (via the system instruction).  The function is total: every
path returns a result, the catch-all handler routing any remote failure to the
local fallback over the executable configs. -/
def analyzeUserIntent (hasApiKey : Bool)
    (remote : String → List ToolDescription → Language → RemoteOutcome)
    (userMessage : String) (availableConfigs : List OpsConfig)
    (language : Language) : IntentAnalysisResult :=
  let execCfgs := executableConfigs availableConfigs
  if !hasApiKey then
    performLocalFallbackAnalysis userMessage execCfgs language
  else
    match remote userMessage (toolsDescription availableConfigs) language with
    | .failure => performLocalFallbackAnalysis userMessage execCfgs language
    | .success result => normalizeRemoteResult result

/-! ## JSON values

A small JSON value model for the mock-response data objects the queue builds
and for the oracle result of `JSON.parse` in the cURL-derivation branch.
Objects and arrays are spelled as mutual inductives so that the serializers
below are plainly structural. -/

mutual

inductive Json where
  | str : String → Json
  | num : Int → Json
  | obj : JsonFields → Json
  | arr : JsonElems → Json

inductive JsonFields where
  | nil : JsonFields
  | cons : String → Json → JsonFields → JsonFields

inductive JsonElems where
  | nil : JsonElems
  | cons : Json → JsonElems → JsonElems

end

/-- Build an object from a field list. -/
def Json.mkObj : List (String × Json) → Json
  | fields => .obj (fields.foldr (fun kv rest => .cons kv.1 kv.2 rest) .nil)

/-- Build an array from an element list. -/
def Json.mkArr : List Json → Json
  | elems => .arr (elems.foldr .cons .nil)

/-- Minimal JSON string escaping (quote and backslash; the data the source
serializes contains no control characters). -/
def escapeJson (s : String) : String :=
  String.join (s.toList.map (fun c =>
    if c = '"' then "\\\"" else if c = '\\' then "\\\\" else String.singleton c))

/-- `n` levels of the two-space indentation `JSON.stringify(_, null, 2)` uses. -/
def padTo (lvl : Nat) : String :=
  String.mk (List.replicate (2 * lvl) ' ')

mutual

/-- `JSON.stringify(v, null, 2)` (pretty, two-space indent) at nesting
level `lvl`. -/
def jsonStringifyAux : Nat → Json → String
  | _, .str s => "\"" ++ escapeJson s ++ "\""
  | _, .num n => toString n
  | _, .obj .nil => "\x7b\x7d"
  | lvl, .obj fields =>
    "\x7b\n" ++ jsJoin ",\n" (jsonFieldsAux (lvl + 1) fields) ++
      "\n" ++ padTo lvl ++ "\x7d"
  | _, .arr .nil => "[]"
  | lvl, .arr elems =>
    "[\n" ++ jsJoin ",\n" (jsonElemsAux (lvl + 1) elems) ++
      "\n" ++ padTo lvl ++ "]"

def jsonFieldsAux : Nat → JsonFields → List String
  | _, .nil => []
  | lvl, .cons key value rest =>
    (padTo lvl ++ "\"" ++ escapeJson key ++ "\": " ++ jsonStringifyAux lvl value) ::
      jsonFieldsAux lvl rest

def jsonElemsAux : Nat → JsonElems → List String
  | _, .nil => []
  | lvl, .cons value rest =>
    (padTo lvl ++ jsonStringifyAux lvl value) :: jsonElemsAux lvl rest

end

/-- `JSON.stringify(v, null, 2)`. -/
def jsonStringify (v : Json) : String :=
  jsonStringifyAux 0 v

mutual

/-- Compact `JSON.stringify(v)` (used for the cURL `-d` payload). -/
def jsonCompactAux : Json → String
  | .str s => "\"" ++ escapeJson s ++ "\""
  | .num n => toString n
  | .obj fields => "\x7b" ++ jsJoin "," (jsonCompactFields fields) ++ "\x7d"
  | .arr elems => "[" ++ jsJoin "," (jsonCompactElems elems) ++ "]"

def jsonCompactFields : JsonFields → List String
  | .nil => []
  | .cons key value rest =>
    ("\"" ++ escapeJson key ++ "\":" ++ jsonCompactAux value) :: jsonCompactFields rest

def jsonCompactElems : JsonElems → List String
  | .nil => []
  | .cons value rest => jsonCompactAux value :: jsonCompactElems rest

end

mutual

/-- How a JS template literal displays a value (`` `${v}` ``): strings as-is,
numbers in decimal, objects as `[object Object]`, arrays joined by commas. -/
def jsDisplayJson : Json → String
  | .str s => s
  | .num n => toString n
  | .obj _ => "[object Object]"
  | .arr elems => jsJoin "," (jsDisplayElems elems)

def jsDisplayElems : JsonElems → List String
  | .nil => []
  | .cons value rest => jsDisplayJson value :: jsDisplayElems rest

end

/-- Property access `data.key` on a parsed JSON value: `none` models
`undefined`. -/
def jsGet (v : Json) (key : String) : Option Json :=
  match v with
  | .obj fields => go fields
  | _ => none
where
  go : JsonFields → Option Json
    | .nil => none
    | .cons k value rest => if k = key then some value else go rest

/-- JS template display of a possibly-`undefined` value. -/
def jsDisplay : Option Json → String
  | none => "undefined"
  | some v => jsDisplayJson v

/-- JS truthiness of a possibly-`undefined` JSON value. -/
def jsTruthy : Option Json → Bool
  | none => false
  | some (.str s) => decide (s ≠ "")
  | some (.num n) => decide (n ≠ 0)
  | some (.obj _) => true
  | some (.arr _) => true

/-- `Object.entries(v)` for an object value (for the header loop of the cURL
builder; exotic non-object header values are not modelled). -/
def jsEntries : Option Json → List (String × Json)
  | some (.obj fields) => go fields
  | _ => []
where
  go : JsonFields → List (String × Json)
    | .nil => []
    | .cons k value rest => (k, value) :: go rest

/-- `Object.keys(v).length` (objects only; other values have no own keys that
matter here). -/
def jsKeysLength : Json → Nat
  | .obj fields => go fields
  | _ => 0
where
  go : JsonFields → Nat
    | .nil => 0
    | .cons _ _ rest => go rest + 1

/-- `buildCurlCommand` from `src/vite.config.ts` (lines 592-612): renders a
`curl` command from the parsed API content.  The `try`/`catch` wrapper never
fires in the model because every step is total. -/
def buildCurlCommand (method : String) (data : Json) : String :=
  let cmd := "curl -X " ++ method ++ " \x27" ++ jsDisplay (jsGet data "url") ++ "\x27"
  let cmd :=
    if jsTruthy (jsGet data "headers") then
      (jsEntries (jsGet data "headers")).foldl
        (fun acc kv => acc ++ " \\\n  -H \x27" ++ kv.1 ++ ": " ++ jsDisplay (some kv.2) ++ "\x27")
        cmd
    else cmd
  match jsGet data "body" with
  | some body =>
    if jsTruthy (some body) && decide (method ≠ "GET") && decide (0 < jsKeysLength body) then
      cmd ++ " \\\n  -d \x27" ++ jsonCompactAux body ++ "\x27"
    else cmd
  | none => cmd

/-! ## Response Synthesizer -/

/-- The status of an `ExecutionLog` record.  The TS type annotates
`'SUCCESS' | 'FAILURE'`, and the queue additionally writes the literal
`'CANCELLED'` for cancelled attempts. -/
inductive LogStatus where
  | SUCCESS
  | FAILURE
  | CANCELLED
deriving DecidableEq, Repr

/-- The result record of `generateMockResponse`:
`{ output, status, returnCode, summary, duration }`. -/
structure MockResponse where
  output : String
  status : LogStatus
  returnCode : Int
  summary : String
  duration : Nat
deriving DecidableEq, Repr

/-- The 50-host list of the RMS `DescribeHosts` mock
(the `for (let i = 1; i <= 50; i++)` loop). -/
def rmsHosts : List Json :=
  (List.range 50).map (fun k =>
    let i := k + 1
    Json.mkObj
      [("ClusterId", .str ""),
       ("Aid", .num 0),
       ("name", .str ("11-241-212-" ++ toString (70 + i) ++ ".jdstack.local")),
       ("host", .str ("11.241.212." ++ toString (70 + i))),
       ("tag", .str (if i % 3 = 0 then "gpu-node" else "")),
       ("az", .str "stack-malaysia-1a"),
       ("data_center", .str "MY-DC-1"),
       ("rack", .str ("T2-L5-" ++ toString (150 + i / 10))),
       ("machine", .str "general_2"),
       ("service_type", .str "kvm,hyper"),
       ("cpus", .num 96),
       ("memory", .num 384400),
       ("state", .str "Enable")])

/-- `generateMockResponse` from `src/vite.config.ts` (lines 1000-1069).
`randDur` models the draw `Math.floor(Math.random() * 200)` (the source's
value always lies in `[0, 200)`, hence the `% 200`); `randReqId` models
`Math.random().toString(36).substring(7)` in the RMS request id.  `status`
is initialized to `'SUCCESS'` and never reassigned in the source. -/
def generateMockResponse (randDur : Nat) (randReqId : String)
    (config : OpsConfig) : MockResponse :=
  let duration := randDur % 200 + 50
  if config.type = ConfigType.API then
    let returnCode : Int := 200
    let (data, summary) :=
      if config.id = "api-rms-describe-hosts" || includes config.name "RMS" then
        (Json.mkObj
          [("code", .num 0),
           ("message", .str "Success"),
           ("requestId", .str ("req-" ++ randReqId)),
           ("total", .num 50),
           ("data", Json.mkArr rmsHosts)],
         "RMS Hosts listed (" ++ toString rmsHosts.length ++ " Hosts Found)")
      else if includes config.name "User" || includes config.name "用户" then
        (Json.mkObj
          [("users", Json.mkArr
              [Json.mkObj [("id", .num 1), ("name", .str "admin")],
               Json.mkObj [("id", .num 2), ("name", .str "devops")]]),
           ("total", .num 2)],
         "Fetched user list")
      else if includes config.name "Status" || includes config.name "状态" then
        (Json.mkObj [("status", .str "HEALTHY"), ("active_connections", .num 42)],
         "Status check passed")
      else
        (Json.mkObj
          [("message", .str "Operation completed successfully"),
           ("config_id", .str config.id)],
         "Operation completed")
    { output := "**Status**: `" ++ toString returnCode ++ " OK`\n**Time**: `" ++
        toString duration ++ "ms`\n**Response**:\n```json\n" ++ jsonStringify data ++ "\n```"
      status := .SUCCESS
      returnCode := returnCode
      summary := summary
      duration := duration }
  else
    let returnCode : Int := 0
    let (logs, summary) :=
      if includes config.name "Backup" || includes config.name "备份" then
        ("[INFO] Starting database backup job...\n[SUCCESS] Backup completed. Size: 45MB.",
         "Backup completed (45MB)")
      else
        ("[INFO] Starting script execution...\n[SUCCESS] Task completed successfully.",
         "Script executed successfully")
    { output := "**Exit Code**: `" ++ toString returnCode ++ "`\n**Output**:\n```bash\n" ++
        logs ++ "\n```"
      status := .SUCCESS
      returnCode := returnCode
      summary := summary
      duration := duration }

/-! ## Execution queue

The single-flight execution queue of `ChatView` (`src/vite.config.ts`,
lines 755-1074) as a transition system.  The source is single-threaded
cooperative JS: every synchronous block between awaited points is one atomic
transition.  The suspension points are exactly:

* the 5000 ms simulated-latency wait inside `processQueue` (resolved by the
  timer — the `complete` event — or rejected by the abort signal — the
  `cancel` event), and
* the gaps between macrotasks, during which the user may click Execute
  (the `enqueue` event) and the `useEffect` re-runs `processQueue`
  (the `start` event).

`handleCancelExecution` aborts `currentAbortController.current`, which is
non-null exactly while an entry's simulated wait is pending, so a `cancel`
event outside a wait is a no-op.  The non-`AbortError` catch branch of
`processQueue` is unreachable in the model because every modelled step is
total.  The welcome message and the resolver-driven chat messages of
`handleSendMessage` are outside the queue model. -/

/-- `status` marker of a chat message (`'EXECUTING' | 'CANCELLED'` literals in
the source; a completed execution resets it to `undefined`). -/
inductive MsgStatus where
  | EXECUTING
  | CANCELLED
deriving DecidableEq, Repr

/-- The chat-message fields the queue reads or writes.  Ids and timestamps
are logical-clock values standing for `Date.now()` readings. -/
structure Message where
  id : Nat
  role : String
  content : String
  timestamp : Nat
  status : Option MsgStatus
  curlCommand : Option String
  isError : Bool
deriving DecidableEq, Repr

/-- `ExecutionLog` from `types.ts`, the audit record `onLogExecute` emits.
`id`/`timestamp` are logical-clock values. -/
structure ExecutionLog where
  id : Nat
  configId : String
  configName : String
  type : ConfigType
  timestamp : Nat
  durationMs : Nat
  status : LogStatus
  returnCode : Int
  resultSummary : String
  requestSnapshot : String
  responseSnapshot : String
deriving DecidableEq, Repr

/-- The data `processQueue` holds across the simulated-latency wait: the queue
head being processed, its resolved config, the id of its "Executing…" message
and the variable-substituted content. -/
structure InFlight where
  configId : String
  config : OpsConfig
  execMsgId : Nat
  resolvedContent : String
deriving DecidableEq, Repr

/-- The mutable state of one `ChatView` session that the queue touches:
`executionQueue`, `isProcessingRef`, the pending wait (with its abort
controller), `messages`, and the audit log sink (records in emission order).
`now` is the logical clock; `history` is a ghost trace of all enqueued action
ids in `enqueue` order (it affects no transition). -/
structure ChatState where
  queue : List String
  processing : Bool
  inFlight : List InFlight
  messages : List Message
  log : List ExecutionLog
  now : Nat
  history : List String
deriving DecidableEq, Repr

/-- The initial state of a fresh session: empty queue, lock released, no
pending wait, no records. -/
def initState : ChatState :=
  { queue := [], processing := false, inFlight := [], messages := [], log := [],
    now := 0, history := [] }

/-- Immutable context of one session: the registry snapshot, the locale texts
and the `JSON.parse` oracle. -/
structure Ctx where
  configs : List OpsConfig
  executingText : String
  successText : String
  cancelledText : String
  jsonParse : String → Option Json

/-- The queue-relevant entries of the `translations` table in
`src/vite.config.ts`: `t.executing`, `t.success`, `t.cancelled`. -/
def queueTexts (language : Language) : String × String × String :=
  match language with
  | .en => ("Executing", "Execution Successful", "Execution Cancelled")
  | .zh => ("执行中", "执行成功", "已取消执行")

/-- The events that can hit the queue between atomic blocks. `complete`
carries the random draws `generateMockResponse` consumes. -/
inductive Event where
  | enqueue (configId : String)
  | start
  | complete (randDur : Nat) (randReqId : String)
  | cancel
deriving DecidableEq, Repr

/-- Logical-clock increment per event (`Date.now()` strictly grows between
the macrotasks that read it; 1000 ticks keep the `+ 100` success-message id
distinct from every other id). -/
def tick : Nat := 1000

/-- `handleExecute(configId)`: append to the tail of the queue; the effect
hook picks it up via a separate `start` event. -/
def stepEnqueue (s : ChatState) (configId : String) : ChatState :=
  { s with queue := s.queue ++ [configId],
           history := s.history ++ [configId],
           now := s.now + tick }

/-- `resolveVariables`: the variable-substitution loop of `processQueue`
(lines 845-853) — for every ENV config, in registry order,
`resolvedContent = resolvedContent.split(`$\x7b`+name+`\x7d`).join(env.content)`,
i.e. replace every literal occurrence of the placeholder, one pass per ENV. -/
def resolveVariables (configs : List OpsConfig) (content : String) : String :=
  let envConfigs := configs.filter (fun c => decide (c.type = ConfigType.ENV))
  envConfigs.foldl
    (fun resolved env =>
      let placeholder := "$\x7b" ++ env.name ++ "\x7d"
      jsJoin env.content (jsSplit resolved placeholder))
    content

/-- The "Executing…" chat message appended when an entry starts
(`` `${t.executing}: ${config.name}...` `` with `status: 'EXECUTING'`). -/
def mkExecutingMessage (executingText : String) (now : Nat) (config : OpsConfig) : Message :=
  { id := now, role := "bot",
    content := executingText ++ ": " ++ config.name ++ "...",
    timestamp := now, status := some .EXECUTING, curlCommand := none, isError := false }

/-- The synchronous head of `processQueue` (lines 819-866), from the re-entry
guard up to the cancellable wait.  If the lock is held or the queue is empty
nothing happens.  If the head's config id is unknown, the `if (config)` body
is skipped and the `finally` block dequeues and releases the lock in the same
synchronous pass — silently, with no record and no message.  Otherwise the
lock is taken, the "Executing…" message is appended, variables are resolved
and the entry enters its simulated-latency wait. -/
def stepStart (ctx : Ctx) (s : ChatState) : ChatState :=
  if s.processing then s
  else
    match s.queue with
    | [] => s
    | configId :: tl =>
      match ctx.configs.find? (fun c => decide (c.id = configId)) with
      | none => { s with queue := tl, now := s.now + tick }
      | some config =>
        { s with
            processing := true
            inFlight := s.inFlight ++
              [{ configId := configId, config := config, execMsgId := s.now,
                 resolvedContent := resolveVariables ctx.configs config.content }]
            messages := s.messages ++ [mkExecutingMessage ctx.executingText s.now config]
            now := s.now + tick }

/-- `config.method || 'GET'` (an absent or empty method falls back to GET). -/
def methodOrGET (method : Option String) : String :=
  match method with
  | none => "GET"
  | some m => if m = "" then "GET" else m

/-- The `requestSnapshot` and `generatedCurl` derivation of the completion
path (lines 872-887): for API configs whose resolved content parses as JSON,
pretty-print it and build the cURL string; a parse failure silently keeps the
content as-is; SCRIPT configs snapshot the script text. -/
def deriveSnapshot (ctx : Ctx) (config : OpsConfig) (resolvedContent : String) :
    String × String :=
  if config.type = ConfigType.API then
    match ctx.jsonParse resolvedContent with
    | some jsonObj =>
      ("Method: " ++ methodOrGET config.method ++ "\nContent: " ++ jsonStringify jsonObj,
       buildCurlCommand (methodOrGET config.method) jsonObj)
    | none =>
      ("Method: " ++ methodOrGET config.method ++ "\nContent: " ++ resolvedContent, "")
  else
    ("Script Content:\n" ++ resolvedContent, "")

/-- The audit record emitted on normal completion (lines 889-901). -/
def mkSuccessLog (now : Nat) (config : OpsConfig) (mock : MockResponse)
    (requestSnapshot : String) : ExecutionLog :=
  { id := now, configId := config.id, configName := config.name, type := config.type,
    timestamp := now, durationMs := mock.duration, status := mock.status,
    returnCode := mock.returnCode, resultSummary := mock.summary,
    requestSnapshot := requestSnapshot, responseSnapshot := mock.output }

/-- The success chat message appended on completion (lines 910-916). -/
def mkSuccessMessage (successText : String) (now : Nat) (config : OpsConfig)
    (output generatedCurl : String) : Message :=
  { id := now + 100, role := "bot",
    content := "✅ **" ++ successText ++ "**: " ++ config.name ++ "\n\n" ++ output,
    timestamp := now, status := none, curlCommand := some generatedCurl, isError := false }

/-- The wait of the head entry elapses uncancelled: the rest of `processQueue`
(lines 868-916) plus its `finally` block runs as one synchronous block —
synthesize the mock response, derive the snapshot/cURL, emit exactly one
audit record, clear the `EXECUTING` marker of the executing message, append
the success message, then dequeue and release the lock. -/
def stepComplete (ctx : Ctx) (s : ChatState) (randDur : Nat) (randReqId : String) :
    ChatState :=
  match s.inFlight with
  | [] => s
  | f :: rest =>
    let mock := generateMockResponse randDur randReqId f.config
    let snap := deriveSnapshot ctx f.config f.resolvedContent
    { s with
        queue := s.queue.tail
        processing := false
        inFlight := rest
        messages :=
          (s.messages.map (fun m => if m.id = f.execMsgId then { m with status := none } else m))
            ++ [mkSuccessMessage ctx.successText s.now f.config mock.output snap.2]
        log := s.log ++ [mkSuccessLog s.now f.config mock snap.1]
        now := s.now + tick }

/-- The audit record emitted for a cancelled attempt (lines 927-939). -/
def mkCancelLog (now : Nat) (config : OpsConfig) : ExecutionLog :=
  { id := now, configId := config.id, configName := config.name, type := config.type,
    timestamp := now, durationMs := 0, status := .CANCELLED, returnCode := -1,
    resultSummary := "User Cancelled", requestSnapshot := "Cancelled",
    responseSnapshot := "Cancelled" }

/-- `handleCancelExecution` while a wait is pending: the abort signal rejects
the wait, and the `AbortError` catch branch (lines 918-939) plus `finally`
runs as one synchronous block — rewrite the executing message in place to the
cancelled state, emit exactly one CANCELLED audit record, then dequeue and
release the lock.  With no pending wait the abort controller is `null` and
nothing happens. -/
def stepCancel (ctx : Ctx) (s : ChatState) : ChatState :=
  match s.inFlight with
  | [] => s
  | f :: rest =>
    { s with
        queue := s.queue.tail
        processing := false
        inFlight := rest
        messages := s.messages.map (fun m =>
          if m.id = f.execMsgId then
            { m with content := "🚫 **" ++ ctx.cancelledText ++ "**: " ++ f.config.name,
                     status := some .CANCELLED }
          else m)
        log := s.log ++ [mkCancelLog s.now f.config]
        now := s.now + tick }

/-- One event. -/
def step (ctx : Ctx) (s : ChatState) : Event → ChatState
  | .enqueue configId => stepEnqueue s configId
  | .start => stepStart ctx s
  | .complete randDur randReqId => stepComplete ctx s randDur randReqId
  | .cancel => stepCancel ctx s

/-- Run a whole event trace from the initial session state. -/
def run (ctx : Ctx) (events : List Event) : ChatState :=
  events.foldl (step ctx) initState

/-- An action id resolves in the registry snapshot. -/
def known (ctx : Ctx) (configId : String) : Bool :=
  (ctx.configs.find? (fun c => decide (c.id = configId))).isSome

/-! ## Concrete registries, contexts and traces -/

/-- A SCRIPT action matching the spec scenario "Database Backup". -/
def backupScript : OpsConfig :=
  { id := "script-backup", name := "Database Backup",
    description := "Run the nightly database backup", type := .SCRIPT,
    content := "backup.sh", method := none, tags := ["db"], lastUpdated := "" }

/-- A second SCRIPT action for FIFO traces. -/
def cleanupScript : OpsConfig :=
  { id := "script-clean", name := "Workspace Tidy",
    description := "Remove temporary files", type := .SCRIPT,
    content := "clean.sh", method := none, tags := ["fs"], lastUpdated := "" }

/-- The ENV action of spec property P6: name `FOO`, content `baz`. -/
def fooEnv : OpsConfig :=
  { id := "env-foo", name := "FOO", description := "base path", type := .ENV,
    content := "baz", method := none, tags := [], lastUpdated := "" }

/-- The target of spec property P6: a SCRIPT whose content is `$\x7bFOO\x7d/bar`. -/
def pathScript : OpsConfig :=
  { id := "script-path", name := "Path Echo", description := "Echo a path",
    type := .SCRIPT, content := "$\x7bFOO\x7d/bar", method := none, tags := [],
    lastUpdated := "" }

/-- ENV `A` whose value contains the placeholder of the later ENV `B`. -/
def envA : OpsConfig :=
  { id := "env-a", name := "A", description := "", type := .ENV,
    content := "$\x7bB\x7d", method := none, tags := [], lastUpdated := "" }

/-- ENV `B`, later in registry order than `A`. -/
def envB : OpsConfig :=
  { id := "env-b", name := "B", description := "", type := .ENV,
    content := "x", method := none, tags := [], lastUpdated := "" }

/-- ENV whose value contains its own placeholder (re-expansion probe). -/
def loopEnv : OpsConfig :=
  { id := "env-loop", name := "LOOP", description := "", type := .ENV,
    content := "$\x7bLOOP\x7d", method := none, tags := [], lastUpdated := "" }

/-- Queue context over the two demo scripts, English locale, with a
`JSON.parse` oracle that never parses (irrelevant to SCRIPT traces). -/
def demoCtx : Ctx :=
  { configs := [backupScript, cleanupScript], executingText := "Executing",
    successText := "Execution Successful", cancelledText := "Execution Cancelled",
    jsonParse := fun _ => none }

/-- Queue context for the substitution property P6. -/
def substCtx : Ctx :=
  { configs := [fooEnv, pathScript], executingText := "Executing",
    successText := "Execution Successful", cancelledText := "Execution Cancelled",
    jsonParse := fun _ => none }

/-- The spec P2 scenario: enqueue A, start it, enqueue B while A is in flight,
complete A, start B, complete B. -/
def fifoEvents : List Event :=
  [.enqueue "script-backup", .start, .enqueue "script-clean",
   .complete 0 "r1", .start, .complete 7 "r2"]

/-- A trace leaving one entry in its simulated-latency wait. -/
def inFlightEvents : List Event :=
  [.enqueue "script-backup", .start]

/-- The in-flight entry produced by `inFlightEvents` (the enqueue happens at
logical time 0, the start at logical time 1000). -/
def backupFlight : InFlight :=
  { configId := "script-backup", config := backupScript, execMsgId := 1000,
    resolvedContent := "backup.sh" }

/-- A remote oracle that answers with the ENV action's id — the shape a
misbehaving (or merely unconstrained) remote model may return, which
`analyzeUserIntent` passes through unvalidated. -/
def badRemote : String → List ToolDescription → Language → RemoteOutcome :=
  fun _ _ _ =>
    .success { matchedConfigId := some "env-foo", suggestedConfigIds := some ["env-foo"],
               reply := "ok", confidence := 1 }

/-! ## The queue invariant -/

/-- The state invariant of the queue: (1) with the lock released nothing is in
flight; (2) an in-flight entry is unique, holds the lock, is still the queue
head (`finally` dequeues only on exit), carries the config its id resolves to,
and its "Executing…" message is present; (3) the enqueue history splits into
processed entries followed by the current queue, and the audit log lists, in
order, exactly the processed entries whose id resolved in the registry. -/
def Inv (ctx : Ctx) (s : ChatState) : Prop :=
  (s.processing = false → s.inFlight = []) ∧
  (∀ f rest, s.inFlight = f :: rest →
    rest = [] ∧ s.processing = true ∧
    (∃ tl, s.queue = f.configId :: tl) ∧
    ctx.configs.find? (fun c => decide (c.id = f.configId)) = some f.config ∧
    (∃ m ∈ s.messages, m.id = f.execMsgId ∧ m.status = some MsgStatus.EXECUTING)) ∧
  (∃ done, s.history = done ++ s.queue ∧
    s.log.map (·.configId) = done.filter (known ctx))

theorem inv_init (ctx : Ctx) : Inv ctx initState := by
  refine ⟨fun _ => rfl, ?_, [], rfl, rfl⟩
  intro f rest h
  simp [initState] at h

/-! Equation lemmas for the step functions, one per source branch. -/

theorem stepStart_locked (ctx : Ctx) (s : ChatState) (hps : s.processing = true) :
    stepStart ctx s = s := by
  simp [stepStart, hps]

theorem stepStart_empty (ctx : Ctx) (s : ChatState) (hps : s.processing = false)
    (hq : s.queue = []) : stepStart ctx s = s := by
  simp [stepStart, hps, hq]

theorem stepStart_unknown (ctx : Ctx) (s : ChatState) (cid : String) (tl : List String)
    (hps : s.processing = false) (hq : s.queue = cid :: tl)
    (hfind : ctx.configs.find? (fun c => decide (c.id = cid)) = none) :
    stepStart ctx s = { s with queue := tl, now := s.now + tick } := by
  simp [stepStart, hps, hq, hfind]

theorem stepStart_known (ctx : Ctx) (s : ChatState) (cid : String) (tl : List String)
    (cfg : OpsConfig) (hps : s.processing = false) (hq : s.queue = cid :: tl)
    (hfind : ctx.configs.find? (fun c => decide (c.id = cid)) = some cfg) :
    stepStart ctx s =
      { s with
          processing := true
          inFlight := s.inFlight ++
            [{ configId := cid, config := cfg, execMsgId := s.now,
               resolvedContent := resolveVariables ctx.configs cfg.content }]
          messages := s.messages ++ [mkExecutingMessage ctx.executingText s.now cfg]
          now := s.now + tick } := by
  simp [stepStart, hps, hq, hfind]

theorem stepComplete_idle (ctx : Ctx) (s : ChatState) (randDur : Nat) (randReqId : String)
    (hifl : s.inFlight = []) : stepComplete ctx s randDur randReqId = s := by
  simp [stepComplete, hifl]

theorem stepComplete_busy (ctx : Ctx) (s : ChatState) (randDur : Nat) (randReqId : String)
    (f : InFlight) (rest : List InFlight) (hifl : s.inFlight = f :: rest) :
    stepComplete ctx s randDur randReqId =
      { s with
          queue := s.queue.tail
          processing := false
          inFlight := rest
          messages :=
            (s.messages.map (fun m =>
              if m.id = f.execMsgId then { m with status := none } else m)) ++
              [mkSuccessMessage ctx.successText s.now f.config
                (generateMockResponse randDur randReqId f.config).output
                (deriveSnapshot ctx f.config f.resolvedContent).2]
          log := s.log ++
            [mkSuccessLog s.now f.config (generateMockResponse randDur randReqId f.config)
              (deriveSnapshot ctx f.config f.resolvedContent).1]
          now := s.now + tick } := by
  simp [stepComplete, hifl]

theorem stepCancel_idle (ctx : Ctx) (s : ChatState) (hifl : s.inFlight = []) :
    stepCancel ctx s = s := by
  simp [stepCancel, hifl]

theorem stepCancel_busy (ctx : Ctx) (s : ChatState) (f : InFlight) (rest : List InFlight)
    (hifl : s.inFlight = f :: rest) :
    stepCancel ctx s =
      { s with
          queue := s.queue.tail
          processing := false
          inFlight := rest
          messages := s.messages.map (fun m =>
            if m.id = f.execMsgId then
              { m with content := "🚫 **" ++ ctx.cancelledText ++ "**: " ++ f.config.name,
                       status := some .CANCELLED }
            else m)
          log := s.log ++ [mkCancelLog s.now f.config]
          now := s.now + tick } := by
  simp [stepCancel, hifl]

theorem inv_enqueue (ctx : Ctx) (s : ChatState) (hInv : Inv ctx s) (cid : String) :
    Inv ctx (stepEnqueue s cid) := by
  obtain ⟨h1, h2, done, hh, hl⟩ := hInv
  refine ⟨h1, ?_, done, ?_, hl⟩
  · intro f rest hf
    obtain ⟨hrest, hproc, ⟨tl, hq⟩, hfind, hm⟩ := h2 f rest hf
    exact ⟨hrest, hproc, ⟨tl ++ [cid], by simp [stepEnqueue, hq]⟩, hfind, hm⟩
  · simp [stepEnqueue, hh]

theorem inv_start (ctx : Ctx) (s : ChatState) (hInv : Inv ctx s) :
    Inv ctx (stepStart ctx s) := by
  obtain ⟨h1, h2, done, hh, hl⟩ := hInv
  rcases hps : s.processing with _ | _
  · have hifl : s.inFlight = [] := h1 hps
    rcases hq : s.queue with _ | ⟨cid, tl⟩
    · rw [stepStart_empty ctx s hps hq]
      exact ⟨h1, h2, done, hh, hl⟩
    · rcases hfind : ctx.configs.find? (fun c => decide (c.id = cid)) with _ | cfg
      · -- unknown id: silently dequeued in the same pass, no record emitted
        have hknown : known ctx cid = false := by simp [known, hfind]
        rw [stepStart_unknown ctx s cid tl hps hq hfind]
        refine ⟨fun _ => hifl, fun f rest hf => ?_, done ++ [cid], ?_, ?_⟩
        · rw [hifl] at hf
          cases hf
        · rw [hh, hq]
          simp
        · rw [hl, List.filter_append]
          simp [hknown]
      · -- known id: lock taken, entry enters its wait, queue head kept
        rw [stepStart_known ctx s cid tl cfg hps hq hfind]
        rw [hifl]
        refine ⟨?_, ?_, ⟨done, hh, hl⟩⟩
        · intro hc
          cases hc
        · intro f rest hf
          simp only [List.nil_append, List.cons.injEq] at hf
          obtain ⟨hf1, hf2⟩ := hf
          subst hf1
          refine ⟨hf2.symm, rfl, ⟨tl, hq⟩, by simpa using hfind, ?_⟩
          exact ⟨mkExecutingMessage ctx.executingText s.now cfg, by simp, rfl, rfl⟩
  · rw [stepStart_locked ctx s hps]
    exact ⟨h1, h2, done, hh, hl⟩

theorem inv_complete (ctx : Ctx) (s : ChatState) (hInv : Inv ctx s)
    (randDur : Nat) (randReqId : String) :
    Inv ctx (stepComplete ctx s randDur randReqId) := by
  obtain ⟨h1, h2, done, hh, hl⟩ := hInv
  rcases hifl : s.inFlight with _ | ⟨f, rest⟩
  · rw [stepComplete_idle ctx s randDur randReqId hifl]
    exact ⟨h1, h2, done, hh, hl⟩
  · obtain ⟨hrest, hproc, ⟨tl, hq⟩, hfind, -⟩ := h2 f rest hifl
    have hid : f.config.id = f.configId := by
      have := List.find?_some hfind
      simpa using this
    have hknown : known ctx f.configId = true := by simp [known, hfind]
    rw [stepComplete_busy ctx s randDur randReqId f rest hifl]
    refine ⟨fun _ => hrest, fun g grest hg => ?_, done ++ [f.configId], ?_, ?_⟩
    · rw [hrest] at hg
      cases hg
    · rw [hh, hq]
      simp
    · rw [List.map_append, hl, List.filter_append]
      simp [mkSuccessLog, hid, hknown]

theorem inv_cancel (ctx : Ctx) (s : ChatState) (hInv : Inv ctx s) :
    Inv ctx (stepCancel ctx s) := by
  obtain ⟨h1, h2, done, hh, hl⟩ := hInv
  rcases hifl : s.inFlight with _ | ⟨f, rest⟩
  · rw [stepCancel_idle ctx s hifl]
    exact ⟨h1, h2, done, hh, hl⟩
  · obtain ⟨hrest, hproc, ⟨tl, hq⟩, hfind, -⟩ := h2 f rest hifl
    have hid : f.config.id = f.configId := by
      have := List.find?_some hfind
      simpa using this
    have hknown : known ctx f.configId = true := by simp [known, hfind]
    rw [stepCancel_busy ctx s f rest hifl]
    refine ⟨fun _ => hrest, fun g grest hg => ?_, done ++ [f.configId], ?_, ?_⟩
    · rw [hrest] at hg
      cases hg
    · rw [hh, hq]
      simp
    · rw [List.map_append, hl, List.filter_append]
      simp [mkCancelLog, hid, hknown]

theorem inv_step (ctx : Ctx) (s : ChatState) (hInv : Inv ctx s) (e : Event) :
    Inv ctx (step ctx s e) := by
  cases e with
  | enqueue cid => exact inv_enqueue ctx s hInv cid
  | start => exact inv_start ctx s hInv
  | complete randDur randReqId => exact inv_complete ctx s hInv randDur randReqId
  | cancel => exact inv_cancel ctx s hInv

theorem inv_foldl (ctx : Ctx) (events : List Event) (s : ChatState) (hInv : Inv ctx s) :
    Inv ctx (events.foldl (step ctx) s) := by
  induction events generalizing s with
  | nil => exact hInv
  | cons e tl ih => exact ih (step ctx s e) (inv_step ctx s hInv e)

theorem inv_run (ctx : Ctx) (events : List Event) : Inv ctx (run ctx events) :=
  inv_foldl ctx events initState (inv_init ctx)

/-! ## Claim theorems -/

/-- C1: for every registry context and every trace of enqueue calls, effect
runs, wait completions and cancellations, issued at arbitrary points, the
reachable queue state has at most one entry in the EXECUTING state — the
queue is strictly single-flight, so no two execution attempts are in flight
at the same instant, even when further entries are enqueued while a prior
execution is in flight, and the wall-clock execution intervals of the emitted
Execution Records cannot overlap. -/
theorem single_flight_executing (ctx : Ctx) (events : List Event) :
    (run ctx events).inFlight.length ≤ 1 := by
  obtain ⟨h1, h2, -⟩ := inv_run ctx events
  rcases hifl : (run ctx events).inFlight with _ | ⟨f, rest⟩
  · simp
  · obtain ⟨hrest, -⟩ := h2 f rest hifl
    simp [hrest]

/-- C2 counterexample: enqueue an id absent from the registry followed by a
resolvable id and run the queue to quiescence (queue drained, nothing in
flight — every enqueued entry has been dequeued): the emitted Execution
Records' action ids are `["script-backup"]` while the enqueued action ids are
`["ghost", "script-backup"]` — the two sequences are not equal, refuting "the
sequence of emitted Execution Records' action ids equals the sequence of
enqueued action ids in enqueue order" as stated. -/
theorem fifo_breaks_on_unresolvable_id :
    (run demoCtx [.enqueue "ghost", .enqueue "script-backup", .start, .start,
      .complete 0 "r"]).queue = [] ∧
    (run demoCtx [.enqueue "ghost", .enqueue "script-backup", .start, .start,
      .complete 0 "r"]).inFlight = [] ∧
    (run demoCtx [.enqueue "ghost", .enqueue "script-backup", .start, .start,
      .complete 0 "r"]).history = ["ghost", "script-backup"] ∧
    (run demoCtx [.enqueue "ghost", .enqueue "script-backup", .start, .start,
      .complete 0 "r"]).log.map (·.configId) = ["script-backup"] ∧
    (run demoCtx [.enqueue "ghost", .enqueue "script-backup", .start, .start,
      .complete 0 "r"]).log.map (·.configId) ≠
      (run demoCtx [.enqueue "ghost", .enqueue "script-backup", .start, .start,
        .complete 0 "r"]).history := by
  decide

/-- C2 amended: entries are appended to the tail of the pending list
(`stepEnqueue`) and always taken from its head (`stepStart`), and in every
reachable state the enqueue history splits into a processed prefix followed
by the still-pending queue, with the audit log listing, in enqueue order,
exactly the processed entries whose id resolved in the registry (an entry
whose id does not resolve is dequeued with no record); consequently, once the
queue has drained and every enqueued id resolved, the emitted Execution
Records' action ids equal the enqueued action ids in enqueue order, for any
interleaving of enqueues with in-flight executions. -/
theorem fifo_execution_order (ctx : Ctx) (events : List Event) :
    (∃ done, (run ctx events).history = done ++ (run ctx events).queue ∧
      (run ctx events).log.map (·.configId) = done.filter (known ctx)) ∧
    ((run ctx events).queue = [] →
      (∀ cid ∈ (run ctx events).history, known ctx cid = true) →
      (run ctx events).log.map (·.configId) = (run ctx events).history) := by
  obtain ⟨-, -, done, hh, hl⟩ := inv_run ctx events
  refine ⟨⟨done, hh, hl⟩, ?_⟩
  intro hq hk
  rw [hq, List.append_nil] at hh
  subst hh
  rw [hl]
  exact List.filter_eq_self.mpr hk

/-- C2 amended witness: the P2 scenario — enqueue `script-backup`, start it,
enqueue `script-clean` while the first is in flight, run both to completion:
every enqueued id resolves, the queue has drained, and the records come out
in enqueue order `[script-backup, script-clean]`. -/
theorem fifo_execution_order_witness :
    (run demoCtx fifoEvents).queue = [] ∧
    (∀ cid ∈ (run demoCtx fifoEvents).history, known demoCtx cid = true) ∧
    (run demoCtx fifoEvents).log.map (·.configId) = (run demoCtx fifoEvents).history ∧
    (run demoCtx fifoEvents).history = ["script-backup", "script-clean"] := by
  have hq : (run demoCtx fifoEvents).queue = [] := by decide
  have hk : ∀ cid ∈ (run demoCtx fifoEvents).history, known demoCtx cid = true := by decide
  exact ⟨hq, hk, (fifo_execution_order demoCtx fifoEvents).2 hq hk, by decide⟩

/-- C3 counterexample: enqueue an id absent from the registry and let the
processing pass run: the entry is dequeued (the queue drains, nothing is left
in flight) yet the audit log stays empty — a dequeued entry with no Execution
Record, refuting "every entry dequeued causes exactly one Execution Record". -/
theorem dequeued_entry_without_record :
    (run demoCtx [.enqueue "ghost", .start]).history = ["ghost"] ∧
    (run demoCtx [.enqueue "ghost", .start]).queue = [] ∧
    (run demoCtx [.enqueue "ghost", .start]).inFlight = [] ∧
    (run demoCtx [.enqueue "ghost", .start]).log = [] := by
  decide

/-- C3 amended: every dequeued entry whose action id resolves in the registry
causes exactly one Execution Record, in dequeue order (the log lists exactly
the processed resolvable entries, in order); a cancelled attempt also emits
exactly one record and it carries status CANCELLED; an entry whose id does
not resolve is dequeued silently with no record. -/
theorem record_per_resolvable_dequeue (ctx : Ctx) (events : List Event) :
    (∃ done, (run ctx events).history = done ++ (run ctx events).queue ∧
      (run ctx events).log.map (·.configId) = done.filter (known ctx)) ∧
    (∀ f rest, (run ctx events).inFlight = f :: rest →
      (stepCancel ctx (run ctx events)).log =
        (run ctx events).log ++ [mkCancelLog (run ctx events).now f.config] ∧
      (mkCancelLog (run ctx events).now f.config).status = LogStatus.CANCELLED ∧
      (∀ randDur randReqId, (stepComplete ctx (run ctx events) randDur randReqId).log =
        (run ctx events).log ++
          [mkSuccessLog (run ctx events).now f.config
            (generateMockResponse randDur randReqId f.config)
            (deriveSnapshot ctx f.config f.resolvedContent).1])) := by
  obtain ⟨-, -, done, hh, hl⟩ := inv_run ctx events
  refine ⟨⟨done, hh, hl⟩, ?_⟩
  intro f rest hifl
  refine ⟨?_, rfl, ?_⟩
  · rw [stepCancel_busy ctx (run ctx events) f rest hifl]
  · intro randDur randReqId
    rw [stepComplete_busy ctx (run ctx events) randDur randReqId f rest hifl]

/-- C3 amended witness: with `script-backup` in its wait, cancelling emits
exactly one record and its status is CANCELLED. -/
theorem record_per_resolvable_dequeue_witness :
    (run demoCtx inFlightEvents).inFlight = [backupFlight] ∧
    (stepCancel demoCtx (run demoCtx inFlightEvents)).log.map (·.status) =
      [LogStatus.CANCELLED] := by
  have hifl : (run demoCtx inFlightEvents).inFlight = [backupFlight] := by decide
  have h := (record_per_resolvable_dequeue demoCtx inFlightEvents).2 backupFlight [] hifl
  refine ⟨hifl, ?_⟩
  rw [h.1]
  decide

/-- C4: while an entry is inside its simulated-latency wait, a cancellation
signal resolves it into the CANCELLED branch — exactly one Execution Record
with status CANCELLED and returnCode −1 is emitted, and the existing
"Executing…" chat message is rewritten in place (same message id, no message
added or removed, never the completed form) to the cancelled state; once no
wait is pending (in particular after the wait has completed), a cancellation
signal is a no-op on the state. -/
theorem cancellation_correctness (ctx : Ctx) (events : List Event) :
    (∀ f rest, (run ctx events).inFlight = f :: rest →
      (stepCancel ctx (run ctx events)).log =
        (run ctx events).log ++ [mkCancelLog (run ctx events).now f.config] ∧
      (mkCancelLog (run ctx events).now f.config).status = LogStatus.CANCELLED ∧
      (mkCancelLog (run ctx events).now f.config).returnCode = -1 ∧
      (stepCancel ctx (run ctx events)).messages =
        (run ctx events).messages.map (fun m =>
          if m.id = f.execMsgId then
            { m with content := "🚫 **" ++ ctx.cancelledText ++ "**: " ++ f.config.name,
                     status := some MsgStatus.CANCELLED }
          else m) ∧
      (stepCancel ctx (run ctx events)).messages.length =
        (run ctx events).messages.length ∧
      (∃ m ∈ (stepCancel ctx (run ctx events)).messages,
        m.id = f.execMsgId ∧ m.status = some MsgStatus.CANCELLED ∧
        m.content = "🚫 **" ++ ctx.cancelledText ++ "**: " ++ f.config.name)) ∧
    ((run ctx events).inFlight = [] → stepCancel ctx (run ctx events) = run ctx events) := by
  obtain ⟨-, h2, -⟩ := inv_run ctx events
  refine ⟨?_, fun hifl => stepCancel_idle ctx (run ctx events) hifl⟩
  intro f rest hifl
  obtain ⟨-, -, -, -, m, hm, hmid, -⟩ := h2 f rest hifl
  rw [stepCancel_busy ctx (run ctx events) f rest hifl]
  refine ⟨rfl, rfl, rfl, rfl, by simp, ?_⟩
  refine ⟨(fun m => if m.id = f.execMsgId then
      { m with content := "🚫 **" ++ ctx.cancelledText ++ "**: " ++ f.config.name,
               status := some MsgStatus.CANCELLED }
    else m) m, List.mem_map_of_mem _ hm, ?_⟩
  simp [hmid]

/-- C4 witness: with `script-backup` in its wait, cancelling rewrites its
executing message (id 1000) in place to the cancelled text and CANCELLED
state, emits the CANCELLED record with returnCode −1, and a second
cancellation afterwards (no wait pending) changes nothing. -/
theorem cancellation_correctness_witness :
    (run demoCtx inFlightEvents).inFlight = [backupFlight] ∧
    (stepCancel demoCtx (run demoCtx inFlightEvents)).log.map
      (fun r => (r.status, r.returnCode)) = [(LogStatus.CANCELLED, -1)] ∧
    (∃ m ∈ (stepCancel demoCtx (run demoCtx inFlightEvents)).messages,
      m.id = backupFlight.execMsgId ∧ m.status = some MsgStatus.CANCELLED ∧
      m.content = "🚫 **" ++ demoCtx.cancelledText ++ "**: " ++ backupFlight.config.name) ∧
    ((run demoCtx (inFlightEvents ++ [.cancel])).inFlight = [] ∧
      stepCancel demoCtx (run demoCtx (inFlightEvents ++ [.cancel])) =
        run demoCtx (inFlightEvents ++ [.cancel])) := by
  have hifl : (run demoCtx inFlightEvents).inFlight = [backupFlight] := by decide
  have h := (cancellation_correctness demoCtx inFlightEvents).1 backupFlight [] hifl
  have hifl2 : (run demoCtx (inFlightEvents ++ [.cancel])).inFlight = [] := by decide
  refine ⟨hifl, ?_, h.2.2.2.2.2,
    ⟨hifl2, (cancellation_correctness demoCtx (inFlightEvents ++ [.cancel])).2 hifl2⟩⟩
  rw [h.1]
  decide

/-- Helper: every action id the local fallback returns — matched or suggested
— is the id of one of the configs it was given. -/
theorem fallback_ids_from_configs (userMessage : String) (configs : List OpsConfig)
    (language : Language) :
    (∀ i, (performLocalFallbackAnalysis userMessage configs language).matchedConfigId
        = some i → i ∈ configs.map (·.id)) ∧
    (∀ ids, (performLocalFallbackAnalysis userMessage configs language).suggestedConfigIds
        = some ids → ∀ i ∈ ids, i ∈ configs.map (·.id)) := by
  by_cases hk : hasListKeyword (jsToLowerCase userMessage)
  · constructor
    · intro i hi
      simp [performLocalFallbackAnalysis, hk] at hi
    · intro ids hids i hi
      simp [performLocalFallbackAnalysis, hk] at hids
      subst hids
      exact hi
  · rcases hc : matchedConfigsOf (jsToLowerCase userMessage) configs with _ | ⟨a, _ | ⟨b, rest⟩⟩
    · constructor
      · intro i hi
        simp [performLocalFallbackAnalysis, hk, hc] at hi
      · intro ids hids
        simp [performLocalFallbackAnalysis, hk, hc] at hids
    · constructor
      · intro i hi
        simp [performLocalFallbackAnalysis, hk, hc] at hi
        subst hi
        have ha : a ∈ matchedConfigsOf (jsToLowerCase userMessage) configs := by
          rw [hc]; exact List.mem_singleton_self a
        exact List.mem_map_of_mem _ (List.mem_of_mem_filter ha)
      · intro ids hids
        simp [performLocalFallbackAnalysis, hk, hc] at hids
    · constructor
      · intro i hi
        simp [performLocalFallbackAnalysis, hk, hc] at hi
      · intro ids hids i hi
        simp [performLocalFallbackAnalysis, hk, hc] at hids
        subst hids
        have hi2 : i ∈ (a :: b :: rest).map (·.id) := by simpa using hi
        rcases List.mem_map.mp hi2 with ⟨c, hcmem, hcid⟩
        have : c ∈ matchedConfigsOf (jsToLowerCase userMessage) configs := by
          rw [hc]; exact hcmem
        exact hcid ▸ List.mem_map_of_mem _ (List.mem_of_mem_filter this)

/-- C5: for every registry, input and locale, the local fallback resolver
(over the executable configs) computes exactly the claimed case analysis:
keyword hit → no match, all executable ids in registry order, confidence 1;
otherwise, over the space-separated tokens of length > 1 and the candidates
whose lower-cased name/description/kind/tags haystack contains some token —
exactly one candidate → that id with confidence 0.8; several → no match,
candidates in registry order, confidence 0.7; none → no match, no
suggestions, confidence 0. -/
theorem fallback_case_analysis (userMessage : String) (registry : List OpsConfig)
    (language : Language) :
    (hasListKeyword (jsToLowerCase userMessage) = true →
      (performLocalFallbackAnalysis userMessage (executableConfigs registry) language).matchedConfigId = none ∧
      (performLocalFallbackAnalysis userMessage (executableConfigs registry) language).suggestedConfigIds
        = some ((executableConfigs registry).map (·.id)) ∧
      (performLocalFallbackAnalysis userMessage (executableConfigs registry) language).confidence = 1) ∧
    (hasListKeyword (jsToLowerCase userMessage) = false →
      (∀ c, matchedConfigsOf (jsToLowerCase userMessage) (executableConfigs registry) = [c] →
        (performLocalFallbackAnalysis userMessage (executableConfigs registry) language).matchedConfigId = some c.id ∧
        (performLocalFallbackAnalysis userMessage (executableConfigs registry) language).suggestedConfigIds = none ∧
        (performLocalFallbackAnalysis userMessage (executableConfigs registry) language).confidence = 8 / 10) ∧
      (2 ≤ (matchedConfigsOf (jsToLowerCase userMessage) (executableConfigs registry)).length →
        (performLocalFallbackAnalysis userMessage (executableConfigs registry) language).matchedConfigId = none ∧
        (performLocalFallbackAnalysis userMessage (executableConfigs registry) language).suggestedConfigIds
          = some ((matchedConfigsOf (jsToLowerCase userMessage) (executableConfigs registry)).map (·.id)) ∧
        (performLocalFallbackAnalysis userMessage (executableConfigs registry) language).confidence = 7 / 10) ∧
      (matchedConfigsOf (jsToLowerCase userMessage) (executableConfigs registry) = [] →
        (performLocalFallbackAnalysis userMessage (executableConfigs registry) language).matchedConfigId = none ∧
        (performLocalFallbackAnalysis userMessage (executableConfigs registry) language).suggestedConfigIds = none ∧
        (performLocalFallbackAnalysis userMessage (executableConfigs registry) language).confidence = 0)) := by
  constructor
  · intro hk
    refine ⟨?_, ?_, ?_⟩ <;> simp [performLocalFallbackAnalysis, hk]
  · intro hk
    refine ⟨?_, ?_, ?_⟩
    · intro c hc
      refine ⟨?_, ?_, ?_⟩ <;> simp [performLocalFallbackAnalysis, hk, hc]
    · intro hlen
      rcases hc : matchedConfigsOf (jsToLowerCase userMessage) (executableConfigs registry)
        with _ | ⟨a, _ | ⟨b, rest⟩⟩
      · rw [hc] at hlen
        simp at hlen
      · rw [hc] at hlen
        simp at hlen
      · refine ⟨?_, ?_, ?_⟩ <;> simp [performLocalFallbackAnalysis, hk, hc]
    · intro hc
      refine ⟨?_, ?_, ?_⟩ <;> simp [performLocalFallbackAnalysis, hk, hc]

/-- C5 witness: the spec scenario — a registry whose only action is the
SCRIPT "Database Backup" and the input "run database backup" take the
single-candidate branch: that action's id with confidence 0.8. -/
theorem fallback_case_analysis_witness :
    hasListKeyword (jsToLowerCase "run database backup") = false ∧
    matchedConfigsOf (jsToLowerCase "run database backup") (executableConfigs [backupScript])
      = [backupScript] ∧
    (performLocalFallbackAnalysis "run database backup" (executableConfigs [backupScript])
      Language.en).matchedConfigId = some "script-backup" ∧
    (performLocalFallbackAnalysis "run database backup" (executableConfigs [backupScript])
      Language.en).confidence = 8 / 10 := by
  have hk : hasListKeyword (jsToLowerCase "run database backup") = false := by decide
  have hc : matchedConfigsOf (jsToLowerCase "run database backup")
      (executableConfigs [backupScript]) = [backupScript] := by decide
  have h := ((fallback_case_analysis "run database backup" [backupScript] Language.en).2 hk).1
    backupScript hc
  exact ⟨hk, hc, h.1, h.2.2⟩

/-- C6 counterexample: with a registry containing the ENV action `env-foo`
and a remote call that succeeds returning that very id, the resolver passes
the remote result through unvalidated, so the returned result carries the ENV
action's id both as matchedConfigId and inside suggestedConfigIds — refuting
"the resolver's result never contains that ENV action's id". -/
theorem env_id_passed_through_from_remote :
    fooEnv ∈ [fooEnv] ∧ fooEnv.type = ConfigType.ENV ∧
    (analyzeUserIntent true badRemote "hi" [fooEnv] Language.en).matchedConfigId
      = some fooEnv.id ∧
    (analyzeUserIntent true badRemote "hi" [fooEnv] Language.en).suggestedConfigIds
      = some [fooEnv.id] := by
  exact ⟨List.mem_singleton_self fooEnv, rfl, by decide, by decide⟩

/-- C6 amended: for every registry with distinct ids containing an ENV-kind
action, that action is excluded from the candidate catalogue presented to the
remote call (`toolsDescription`) and from the fallback path's candidate set,
and any result produced by the local fallback never contains its id as
matchedConfigId or within suggestedConfigIds; a successful remote response,
however, is passed through after shape normalization only, without validating
its ids against the candidate set. -/
theorem env_exclusion (registry : List OpsConfig) (env : OpsConfig)
    (userMessage : String) (language : Language)
    (henv : env ∈ registry) (htype : env.type = ConfigType.ENV)
    (hnodup : (registry.map (·.id)).Nodup) :
    env.id ∉ (toolsDescription registry).map (·.id) ∧
    (performLocalFallbackAnalysis userMessage (executableConfigs registry) language).matchedConfigId
      ≠ some env.id ∧
    (∀ ids, (performLocalFallbackAnalysis userMessage (executableConfigs registry) language).suggestedConfigIds
      = some ids → env.id ∉ ids) := by
  have hnotin : env.id ∉ (executableConfigs registry).map (·.id) := by
    intro hmem
    rcases List.mem_map.mp hmem with ⟨c, hcmem, hcid⟩
    have hcreg : c ∈ registry := List.mem_of_mem_filter hcmem
    have hceq : c = env := List.inj_on_of_nodup_map hnodup hcreg henv hcid
    have hpred := List.of_mem_filter hcmem
    rw [decide_eq_true_iff] at hpred
    exact hpred (hceq ▸ htype)
  refine ⟨?_, ?_, ?_⟩
  · intro hmem
    apply hnotin
    simpa [toolsDescription, List.map_map, Function.comp] using hmem
  · intro heq
    exact hnotin
      ((fallback_ids_from_configs userMessage (executableConfigs registry) language).1 env.id heq)
  · intro ids hids hmem
    exact hnotin
      ((fallback_ids_from_configs userMessage (executableConfigs registry) language).2 ids hids
        env.id hmem)

/-- C6 amended witness: in the registry `[env-foo, script-backup]` the ENV id
is absent from the remote candidate catalogue and cannot be the fallback's
matched id. -/
theorem env_exclusion_witness :
    fooEnv.id ∉ (toolsDescription [fooEnv, backupScript]).map (·.id) ∧
    (performLocalFallbackAnalysis "run the backup"
      (executableConfigs [fooEnv, backupScript]) Language.en).matchedConfigId
      ≠ some fooEnv.id := by
  have h := env_exclusion [fooEnv, backupScript] fooEnv "run the backup" Language.en
    (by decide) (by decide) (by decide)
  exact ⟨h.1, h.2.1⟩

/-- C7: the resolver is total — every path returns an
`IntentAnalysisResult`, never raising to the caller: with no remote
credential the result is the local deterministic fallback; with a credential,
any remote failure (thrown transport error, missing text, unparseable
payload) also yields the local fallback; a remote success is passed through
after shape normalization, which maps a literal `"null"` matchedConfigId to
an absent value. -/
theorem resolver_failover (hasApiKey : Bool)
    (remote : String → List ToolDescription → Language → RemoteOutcome)
    (userMessage : String) (registry : List OpsConfig) (language : Language) :
    (hasApiKey = false →
      analyzeUserIntent hasApiKey remote userMessage registry language =
        performLocalFallbackAnalysis userMessage (executableConfigs registry) language) ∧
    (remote userMessage (toolsDescription registry) language = RemoteOutcome.failure →
      analyzeUserIntent hasApiKey remote userMessage registry language =
        performLocalFallbackAnalysis userMessage (executableConfigs registry) language) ∧
    (∀ result,
      remote userMessage (toolsDescription registry) language = RemoteOutcome.success result →
      hasApiKey = true →
      analyzeUserIntent hasApiKey remote userMessage registry language =
        normalizeRemoteResult result) ∧
    (∀ result, result.matchedConfigId = some "null" →
      (normalizeRemoteResult result).matchedConfigId = none) := by
  refine ⟨?_, ?_, ?_, ?_⟩
  · intro h
    subst h
    rfl
  · intro h
    cases hasApiKey
    · rfl
    · simp [analyzeUserIntent, h]
  · intro result hr hk
    subst hk
    simp [analyzeUserIntent, hr]
  · intro result hr
    simp [normalizeRemoteResult, hr]

/-- C7 witness: with no credential, and with a credential but a failing
remote, the result is the fallback; a remote `"null"` matched id is
normalized away. -/
theorem resolver_failover_witness :
    analyzeUserIntent false badRemote "deploy" [backupScript] Language.en =
      performLocalFallbackAnalysis "deploy" (executableConfigs [backupScript]) Language.en ∧
    analyzeUserIntent true (fun _ _ _ => RemoteOutcome.failure) "deploy" [backupScript]
        Language.en =
      performLocalFallbackAnalysis "deploy" (executableConfigs [backupScript]) Language.en ∧
    (normalizeRemoteResult
      { matchedConfigId := some "null", suggestedConfigIds := none, reply := "",
        confidence := 0 }).matchedConfigId = none := by
  refine ⟨(resolver_failover false badRemote "deploy" [backupScript] Language.en).1 rfl,
    (resolver_failover true (fun _ _ _ => RemoteOutcome.failure) "deploy" [backupScript]
      Language.en).2.1 rfl,
    (resolver_failover true badRemote "deploy" [backupScript] Language.en).2.2.2
      { matchedConfigId := some "null", suggestedConfigIds := none, reply := "",
        confidence := 0 } rfl⟩

/-- C8: with no remote credential, `resolve` is deterministic — the remote
oracle is never consulted (any two ambient remote behaviours give identical
results), and the result is the pure local fallback of the registry snapshot,
the input string and the locale, so repeated invocations on the same inputs
return identical `IntentAnalysisResult` values (same matched id, same
suggestion sequence, same reply text, same confidence). -/
theorem offline_resolution_deterministic (userMessage : String)
    (registry : List OpsConfig) (language : Language)
    (remote₁ remote₂ : String → List ToolDescription → Language → RemoteOutcome) :
    analyzeUserIntent false remote₁ userMessage registry language =
      analyzeUserIntent false remote₂ userMessage registry language ∧
    analyzeUserIntent false remote₁ userMessage registry language =
      performLocalFallbackAnalysis userMessage (executableConfigs registry) language :=
  ⟨rfl, rfl⟩

/-- C9: execution substitutes, for each ENV config in registry order, every
literal occurrence of `$\x7bNAME\x7d` in the target content by that ENV's
content, as one plain textual pass per variable: the P6 instance
`$\x7bFOO\x7d/bar` with ENV `FOO = baz` runs to an emitted record whose
requestSnapshot contains `baz/bar`; every occurrence is replaced; variables
apply in registry order (a later ENV rewrites the text an earlier one
injected); and the pass is non-recursive (a variable whose value contains its
own placeholder is not re-expanded). -/
theorem variable_substitution :
    resolveVariables [fooEnv, pathScript] "$\x7bFOO\x7d/bar" = "baz/bar" ∧
    (run substCtx [.enqueue "script-path", .start, .complete 0 "r"]).log.map
      (·.requestSnapshot) = ["Script Content:\nbaz/bar"] ∧
    resolveVariables [fooEnv, pathScript] "$\x7bFOO\x7d/bar/$\x7bFOO\x7d" = "baz/bar/baz" ∧
    resolveVariables [envA, envB] "$\x7bA\x7d" = "x" ∧
    resolveVariables [loopEnv] "$\x7bLOOP\x7d" = "$\x7bLOOP\x7d" := by
  decide

/-- C10 counterexample: two invocations of the Response Synthesizer on the
same action with different `Math.random()` draws disagree — already on
`durationMs` (50 vs 51) — refuting "any two invocations on the same action
yield identical results". -/
theorem mock_response_varies_with_random :
    (generateMockResponse 0 "r" backupScript).duration = 50 ∧
    (generateMockResponse 1 "r" backupScript).duration = 51 ∧
    generateMockResponse 0 "r" backupScript ≠ generateMockResponse 1 "r" backupScript := by
  decide

/-- C10 amended: the Response Synthesizer is a total pure function of the
action and the platform random draws, with no error channel, and its status
is always SUCCESS; status, returnCode (200 for API, 0 otherwise) and summary
depend only on the action; but durationMs equals the random draw plus 50 (and
the output text embeds it), so distinct draws across invocations give
distinct results. -/
theorem mock_response_properties (randDur randDur' : Nat) (randReqId randReqId' : String)
    (config : OpsConfig) :
    (generateMockResponse randDur randReqId config).status = LogStatus.SUCCESS ∧
    (generateMockResponse randDur randReqId config).returnCode =
      (if config.type = ConfigType.API then 200 else 0) ∧
    (generateMockResponse randDur randReqId config).summary =
      (generateMockResponse randDur' randReqId' config).summary ∧
    (generateMockResponse randDur randReqId config).duration = randDur % 200 + 50 := by
  by_cases hty : config.type = ConfigType.API <;>
      simp only [generateMockResponse, hty, if_true, if_false]
  · split_ifs <;> simp
  · simp

end SmartOps
